import Mathlib

/-!
Verification of the lib-wallet-indexer subscription / live-event dispatch
engine.  The definitions below are shallow embeddings of the JavaScript
source (src/src/generic.js, tron.js, hardhat.js, solana.js, toncenter.js,
ws.js); each definition's doc comment names the function it embeds.
-/

set_option maxRecDepth 4000

/-- A fragment of the JavaScript value universe, large enough to express the
dynamic behaviour the dispatcher relies on (property access on arrays yields
`undefined`, `Set.has` on a non-member yields `false`, …). -/
inductive JsVal where
  | undef
  | str (s : String)
  | num (n : Int)
  | arr (l : List JsVal)
  | obj (fields : List (String × JsVal))

/-- JavaScript property access `v.name`: objects look the field up, every
other value (including arrays, for the field names used here) yields
`undefined`. -/
def jsField : JsVal → String → JsVal
  | JsVal.obj fields, name =>
    match fields.find? (fun p => p.1 == name) with
    | some p => p.2
    | none => JsVal.undef
  | _, _ => JsVal.undef

/-- JavaScript truthiness of a value. -/
def jsTruthy : JsVal → Bool
  | JsVal.undef => false
  | JsVal.str s => s ≠ ""
  | JsVal.num n => n ≠ 0
  | JsVal.arr _ => true
  | JsVal.obj _ => true

/-- Membership test `Set.has(v)` for a JS `Set` of strings: true exactly when `v` is a string
belonging to the set. -/
def jsSetHas (s : List String) : JsVal → Bool
  | JsVal.str v => s.contains v
  | _ => false

/-- Is the value a JS string? -/
def JsVal.isStr : JsVal → Bool
  | JsVal.str _ => true
  | _ => false

/-- The normalized transaction record flowing through the generic dispatcher
(`Generic._processHeight` iterates these).  `fromAddr`/`toAddr` embed the
source's `from`/`to` fields. -/
structure NTx where
  hash : String
  fromAddr : String
  toAddr : String
  token : Option String
  deriving Repr, DecidableEq

/-- The fields of a delivered `subscribeAccount` payload that identify it:
`sub.send(EVENTS.SUB_ACCOUNT, { tx, addr, token: tx.token })`
(generic.js lines 160-164). -/
structure Frame where
  hash : String
  addr : String
  token : Option String
  deriving Repr, DecidableEq

/-- Iterating a JS string (`new Set(addr)`) yields its code points as
one-character strings. -/
def stringChars (s : String) : List String :=
  s.toList.map (fun c => String.mk [c])

/-- Embedding of `Generic._normalizeAddress` (generic.js lines 199-201): the identity. -/
def Generic.normalizeAddress (address : String) : String :=
  address

/-- The `normalizedAddrSet` built by `Generic._getAddrSetsForComparison`
(generic.js lines 179-183): `new Set(this._normalizeAddress(addr))` where
`addr` is a single address string, so the set holds the characters of the
normalized address.  (The sibling `addrSet` is built the same way from the
raw address and is never consulted by `_isTxForAddress`.) -/
def Generic.normalizedAddrSet (addr : String) : List String :=
  stringChars (Generic.normalizeAddress addr)

/-- Embedding of `Generic._isTxForAddress` (generic.js lines 191-193):
`normalizedAddress.has(tx.from) || normalizedAddress.has(tx.to)`. -/
def Generic.isTxForAddress (tx : NTx) (normalizedAddrSet : List String) : Bool :=
  normalizedAddrSet.contains tx.fromAddr || normalizedAddrSet.contains tx.toAddr

/-- The frames one subscription receives from one height's transaction list
in `Generic._processHeight` (generic.js lines 155-167): for each
`[addr]` of `sub.event`, for each `tx` of `txs`, send when
`_isTxForAddress(tx, …)` holds. -/
def Generic.deliveriesForSub (interests : List (String × List String))
    (txs : List NTx) : List Frame :=
  interests.flatMap (fun p =>
    txs.filterMap (fun tx =>
      if Generic.isTxForAddress tx (Generic.normalizedAddrSet p.1) then
        some ⟨tx.hash, p.1, tx.token⟩
      else none))

/-- The matching rule in the spec's words (§4.4): with no token, fire when
`tx.from == subscribedAddr` or `tx.to == subscribedAddr`; with a token, fire
only when `tokens` contains `tx.token` and one of the sides equals the
subscribed address.  Stated from the spec for comparison with
`Generic.deliveriesForSub`, which is translated from the source. -/
def SpecMatcher.matches (addr : String) (tokens : List String) (tx : NTx) : Bool :=
  match tx.token with
  | none => tx.fromAddr == addr || tx.toAddr == addr
  | some t => tokens.contains t && (tx.fromAddr == addr || tx.toAddr == addr)

/-- C1: the spec's matcher fires for a native transaction whose `from` equals
the subscribed address "ab", yet the generic dispatcher delivers nothing:
`new Set(addr)` holds the characters `"a"`, `"b"`, so the full address string
is never a member and `_isTxForAddress` is false for every address of length
at least two. -/
theorem c1_generic_matcher_drops_matching_tx :
    SpecMatcher.matches "ab" [] ⟨"h1", "ab", "cd", none⟩ = true ∧
    Generic.deliveriesForSub [("ab", [])] [⟨"h1", "ab", "cd", none⟩] = [] := by
  constructor
  · decide
  · decide

/-- One step of the height loop in `Generic._processHeight` (generic.js lines
137-169), recursing on the number of remaining heights.  Each iteration:
if the `subscribeAccount` subscription list is empty, set
`_lastHeight := currentHeight` and return; otherwise fetch the height's
transactions (`.catch(err => [])` turns a failed fetch into the empty list),
dispatch them to every subscription, set `_lastHeight := height` and
continue.  Returns the final `_lastHeight`, the heights for which
`_getHeightTxs` was invoked, and the frames sent. -/
def Generic.processRange (subs : List (List (String × List String)))
    (fetch : Nat → Except Unit (List NTx)) (currentHeight : Nat) :
    Nat → Nat → Nat × List Nat × List Frame
  | last, 0 => (last, [], [])
  | last, Nat.succ n =>
    if subs.isEmpty then (currentHeight, [], [])
    else
      let height := last + 1
      let txs := match fetch height with
        | Except.ok t => t
        | Except.error _ => []
      let frames := subs.flatMap (fun s => Generic.deliveriesForSub s txs)
      let rest := Generic.processRange subs fetch currentHeight height n
      (rest.1, height :: rest.2.1, frames ++ rest.2.2)

/-- Embedding of `Generic._processHeight` (generic.js lines 129-173) for one wake: runs the
loop `for (height = _lastHeight + 1; height <= currentHeight; height++)`.
The single-writer guard and the `await` plumbing carry no state relevant
here. -/
def Generic.processHeight (subs : List (List (String × List String)))
    (fetch : Nat → Except Unit (List NTx)) (lastHeight currentHeight : Nat) :
    Nat × List Nat × List Frame :=
  if currentHeight ≤ lastHeight then (lastHeight, [], [])
  else Generic.processRange subs fetch currentHeight lastHeight (currentHeight - lastHeight)

/-- A fetch that fails at every height, for exercising the error path of
`_getHeightTxs().catch(…)`. -/
def failingFetch : Nat → Except Unit (List NTx) :=
  fun _ => Except.error ()

/-- C3 counterexample: the fetch for height 1 fails, there is a live
subscriber, yet after the poll `_lastHeight = 1`: the `.catch(err => [])` in
`_processHeight` substitutes an empty transaction list and the loop still
executes `this._lastHeight = height`, advancing to the failing height. -/
theorem c3_counterexample_failed_height_is_advanced_past :
    failingFetch 1 = Except.error () ∧
    Generic.processHeight [[("a", [])]] failingFetch 0 1 = (1, [1], []) := by
  constructor
  · rfl
  · rfl

/-- Helper: with a nonempty subscription list, the range loop always drives
`_lastHeight` to `last + fuel`, fetch failures included. -/
theorem Generic.processRange_fst (subs : List (List (String × List String)))
    (fetch : Nat → Except Unit (List NTx)) (currentHeight : Nat)
    (hsubs : subs ≠ []) :
    ∀ fuel last, (Generic.processRange subs fetch currentHeight last fuel).1 = last + fuel := by
  intro fuel
  induction fuel with
  | zero => intro last; simp [Generic.processRange]
  | succ n ih =>
    intro last
    have hne : subs.isEmpty = false := by
      cases subs with
      | nil => exact absurd rfl hsubs
      | cons a l => rfl
    simp only [Generic.processRange, hne, Bool.false_eq_true, if_false]
    rw [ih (last + 1)]
    omega

/-- C3 amended: the poller is skip-on-fail.  Whatever heights fail, a wake
with at least one live subscription and `lastHeight ≤ currentHeight` always
ends with `_lastHeight = currentHeight`; a failing height is treated as
having no transactions and is never retried. -/
theorem c3_amended_poller_advances_past_failures
    (subs : List (List (String × List String)))
    (fetch : Nat → Except Unit (List NTx)) (lastHeight currentHeight : Nat)
    (hsubs : subs ≠ []) (hle : lastHeight ≤ currentHeight) :
    (Generic.processHeight subs fetch lastHeight currentHeight).1 = currentHeight := by
  unfold Generic.processHeight
  by_cases h : currentHeight ≤ lastHeight
  · simp only [h, if_true]
    omega
  · simp only [h, if_false]
    rw [Generic.processRange_fst subs fetch currentHeight hsubs]
    omega

/-- C3 amended witness: a concrete poll with a failing fetch at every height
still ends at the current height. -/
theorem c3_amended_witness :
    (Generic.processHeight [[("a", [])]] failingFetch 2 4).1 = 4 :=
  c3_amended_poller_advances_past_failures [[("a", [])]] failingFetch 2 4
    (by decide) (by decide)

/-- C7: a wake with zero live `subscribeAccount` subscriptions performs no
`_getHeightTxs` fetch at all, delivers nothing, and sets
`_lastHeight := currentHeight`, so no history is replayed when a subscriber
later appears (generic.js lines 140-146). -/
theorem c7_idle_poll_fetches_nothing_and_jumps_to_current
    (fetch : Nat → Except Unit (List NTx)) (lastHeight currentHeight : Nat)
    (hle : lastHeight ≤ currentHeight) :
    Generic.processHeight [] fetch lastHeight currentHeight = (currentHeight, [], []) := by
  unfold Generic.processHeight
  by_cases h : currentHeight ≤ lastHeight
  · simp only [h, if_true]
    have : lastHeight = currentHeight := le_antisymm hle h
    rw [this]
  · simp only [h, if_false]
    have hpos : 0 < currentHeight - lastHeight := by omega
    obtain ⟨n, hn⟩ : ∃ n, currentHeight - lastHeight = n + 1 :=
      ⟨currentHeight - lastHeight - 1, by omega⟩
    rw [hn]
    rfl

/-- C7 witness: three new heights arrive while nobody listens; zero fetches,
zero frames, `_lastHeight` jumps to 8. -/
theorem c7_witness :
    Generic.processHeight [] failingFetch 5 8 = (8, [], []) :=
  c7_idle_poll_fetches_nothing_and_jumps_to_current failingFetch 5 8 (by decide)

/-- One row of the `_subs` map: `0` (the tombstone written by `_wsCloseCid`)
or a live connection record.  Only the `subscribeAccount` interest list is
carried; the `send`/`error` closures hold no comparable state. -/
inductive SubVal where
  | tombstone
  | live (interests : List (String × List String))
  deriving Repr, DecidableEq

/-- Lookup `Map.get` over the association-list model of `_subs`. -/
def mapGet (m : List (String × SubVal)) (k : String) : Option SubVal :=
  match m.find? (fun p => p.1 == k) with
  | some p => some p.2
  | none => none

/-- Update `Map.set` over the association-list model of `_subs`: replace the
existing binding or append a new one. -/
def mapSet (m : List (String × SubVal)) (k : String) (v : SubVal) :
    List (String × SubVal) :=
  if m.any (fun p => p.1 == k) then
    m.map (fun p => if p.1 == k then (k, v) else p)
  else m ++ [(k, v)]

/-- The mutable state of a `Generic` server that the subscribe path touches:
the `_subs` map and the `_contractLogSubs` array. -/
structure GenState where
  subs : List (String × SubVal)
  contractLogSubs : List String
  deriving Repr, DecidableEq

/-- Outcome of a `subscribeAccount` request: either `req.error(msg)` was
called (and the frame `{ error: msg }` sent), or the subscription was
recorded silently. -/
inductive SubscribeResult where
  | error (msg : String)
  | subscribed
  deriving Repr, DecidableEq

/-- Embedding of `Generic._getCidSubs` (generic.js lines 261-265): `_subs.get(cid)` is
falsy for a missing row and for the tombstone `0`, giving `null`; a live row
yields its `subscribeAccount` interest list (a JS array, truthy even when
empty). -/
def Generic.getCidSubs (subs : List (String × SubVal)) (cid : String) :
    Option (List (String × List String)) :=
  match mapGet subs cid with
  | some (SubVal.live l) => some l
  | some SubVal.tombstone => none
  | none => none

/-- Embedding of `Generic._subscribeToLogs` (generic.js lines 203-210): when
`_contractLogSubs.length === 50` the whole call is a no-op (only a log line);
otherwise each contract not already present is appended (the `_subToContract`
upstream side effect carries no state modelled here). -/
def Generic.subscribeToLogs (contractLogSubs : List String)
    (contracts : List String) : List String :=
  if contractLogSubs.length == 50 then contractLogSubs
  else contracts.foldl
    (fun acc addr => if acc.contains addr then acc else acc ++ [addr])
    contractLogSubs

/-- Embedding of `Generic._wsSubscribeAccount` (generic.js lines 231-259) for a request
whose params decode to an optional address string and a token-string array
(`none` models a missing / `undefined` first param, and the empty string is
falsy like any other absent address).  The body: reject a falsy address,
reject when `_subs.size >= 10000`, normalize, reject a duplicate address for
this `(cid, event)`, push the new `(address, tokens)` pair, seed
`_contractLogSubs`, and store through `_addSub` (which drops the write when
the row holds the tombstone, generic.js lines 267-277). -/
def Generic.wsSubscribeAccount (st : GenState) (cid : String)
    (addressParam : Option String) (tokens : List String) :
    GenState × SubscribeResult :=
  match addressParam with
  | none => (st, SubscribeResult.error "account not sent")
  | some address0 =>
    if address0 == "" then (st, SubscribeResult.error "account not sent")
    else if 10000 ≤ st.subs.length then
      (st, SubscribeResult.error "server is not available")
    else
      let address := Generic.normalizeAddress address0
      let cidSubs := (Generic.getCidSubs st.subs cid).getD []
      let acctExists := 0 < (cidSubs.filter (fun sub => sub.1 == address)).length
      if acctExists then (st, SubscribeResult.error "already subscribed to address")
      else
        let cidSubs' := cidSubs ++ [(address, tokens)]
        let logs' := Generic.subscribeToLogs st.contractLogSubs tokens
        let subs' :=
          match mapGet st.subs cid with
          | some SubVal.tombstone => st.subs
          | _ => mapSet st.subs cid (SubVal.live cidSubs')
        ({ subs := subs', contractLogSubs := logs' }, SubscribeResult.subscribed)

/-- C4: with the `_subs` map already holding 10 000 entries, any further
subscribe attempt (for a non-empty address) is rejected with the capacity
error `"server is not available"` and the state is returned untouched; and
with `_contractLogSubs` already holding 50 contracts, `_subscribeToLogs` is a
silent no-op for any further contract list, leaving the 50 entries (and, as
the state is untouched, every existing subscription) intact. -/
theorem c4_capacity_caps_enforced :
    (∀ (st : GenState) (cid addr : String) (tokens : List String),
      st.subs.length = 10000 → addr ≠ "" →
      Generic.wsSubscribeAccount st cid (some addr) tokens =
        (st, SubscribeResult.error "server is not available")) ∧
    (∀ (logs contracts : List String), logs.length = 50 →
      Generic.subscribeToLogs logs contracts = logs) := by
  constructor
  · intro st cid addr tokens hlen haddr
    unfold Generic.wsSubscribeAccount
    have h0 : (addr == "") = false := by
      simp [haddr]
    simp [h0, hlen]
  · intro logs contracts hlen
    unfold Generic.subscribeToLogs
    simp [hlen]

/-- C4 witness: a concrete full table of 10 000 rows rejects an 10 001st
subscription and returns the state unchanged, and a concrete 50-entry
contract list absorbs a fresh contract as a no-op. -/
theorem c4_witness :
    Generic.wsSubscribeAccount
        ⟨List.replicate 10000 ("c", SubVal.live [("x", [])]), []⟩ "fresh"
        (some "addr1") [] =
      (⟨List.replicate 10000 ("c", SubVal.live [("x", [])]), []⟩,
        SubscribeResult.error "server is not available") ∧
    Generic.subscribeToLogs (List.replicate 50 "t") ["t51"] =
      List.replicate 50 "t" := by
  constructor
  · exact c4_capacity_caps_enforced.1
      ⟨List.replicate 10000 ("c", SubVal.live [("x", [])]), []⟩ "fresh" "addr1" []
      (by rw [List.length_replicate]) (by decide)
  · exact c4_capacity_caps_enforced.2 (List.replicate 50 "t") ["t51"]
      (by rw [List.length_replicate])

/-- C5: when the connection `cid` already holds a live subscription whose
interest list contains the address, a second `subscribeAccount` for the same
address on the same connection is rejected with
`"already subscribed to address"` and the whole state — in particular the
first subscription's interest list, hence its future deliveries — is
returned unchanged. -/
theorem c5_duplicate_subscribe_rejected_state_intact
    (st : GenState) (cid addr : String) (tokens : List String)
    (l : List (String × List String))
    (hlen : st.subs.length < 10000) (haddr : addr ≠ "")
    (hrow : mapGet st.subs cid = some (SubVal.live l))
    (hdup : l.any (fun sub => sub.1 == addr)) :
    Generic.wsSubscribeAccount st cid (some addr) tokens =
      (st, SubscribeResult.error "already subscribed to address") ∧
    Generic.getCidSubs ((Generic.wsSubscribeAccount st cid (some addr) tokens).1.subs) cid =
      some l := by
  have h0 : (addr == "") = false := by simp [haddr]
  have hcap : ¬ 10000 ≤ st.subs.length := by omega
  have hget : Generic.getCidSubs st.subs cid = some l := by
    unfold Generic.getCidSubs
    rw [hrow]
  have hex : 0 < (l.filter (fun sub => sub.1 == (Generic.normalizeAddress addr))).length := by
    rw [List.any_eq_true] at hdup
    obtain ⟨x, hx, hxe⟩ := hdup
    have hmem : x ∈ l.filter (fun sub => sub.1 == (Generic.normalizeAddress addr)) := by
      rw [List.mem_filter]
      exact ⟨hx, hxe⟩
    exact List.length_pos_of_mem hmem
  have heq : Generic.wsSubscribeAccount st cid (some addr) tokens =
      (st, SubscribeResult.error "already subscribed to address") := by
    simp only [Generic.wsSubscribeAccount, h0, Bool.false_eq_true, if_false, hget,
      Option.getD_some, if_neg hcap, if_pos hex]
  exact ⟨heq, by rw [heq]; exact hget⟩

/-- C5 witness: a concrete connection subscribed to "addr1" gets the
duplicate-subscription error on the second attempt and keeps its original
interest list. -/
theorem c5_witness :
    Generic.wsSubscribeAccount ⟨[("cid1", SubVal.live [("addr1", ["tok"])])], ["tok"]⟩
        "cid1" (some "addr1") [] =
      (⟨[("cid1", SubVal.live [("addr1", ["tok"])])], ["tok"]⟩,
        SubscribeResult.error "already subscribed to address") ∧
    Generic.getCidSubs
        ((Generic.wsSubscribeAccount ⟨[("cid1", SubVal.live [("addr1", ["tok"])])], ["tok"]⟩
          "cid1" (some "addr1") []).1.subs) "cid1" = some [("addr1", ["tok"])] :=
  c5_duplicate_subscribe_rejected_state_intact
    ⟨[("cid1", SubVal.live [("addr1", ["tok"])])], ["tok"]⟩ "cid1" "addr1" []
    [("addr1", ["tok"])] (by decide) (by decide) (by decide) (by decide)

/-- A transaction as produced by Tron's `#parseTx` (tron.js lines 315-352).
`value` is carried as a JavaScript Number (`+param.value?.amount` or
`parseInt(..., 16)`), which is the fact C6 turns on.  `fromAddr`/`toAddr`
embed the source's `from`/`to`. -/
structure TronParsedTx where
  txid : String
  value : Int
  toAddr : String
  fromAddr : String
  timestamp : Int
  height : Nat
  deriving Repr, DecidableEq

/-- Embedding of `String.prototype.toLowerCase()` as used on addresses: lower-case every
character. -/
def jsToLower (s : String) : String :=
  String.mk (s.toList.map Char.toLower)

/-- The frames one subscription receives from Tron's `#processTxs`
(tron.js lines 164-178): for each parsed tx (stamped with the block height),
for each `[addr]` of the subscription's interests, send `{ tx, addr }` when
`[tx.from.toLowerCase(), tx.to.toLowerCase()].includes(addr.toLowerCase())`. -/
def Tron.processTxsForSub (height : Nat) (parsedTxs : List TronParsedTx)
    (interests : List (String × List String)) : List (TronParsedTx × String) :=
  (parsedTxs.map (fun t => { t with height := height })).flatMap (fun tx =>
    interests.filterMap (fun p =>
      if jsToLower tx.fromAddr == jsToLower p.1 || jsToLower tx.toAddr == jsToLower p.1 then
        some (tx, p.1)
      else none))

/-- The `{ tx, addr }` payload of `sub.send` in Tron's `#processTxs`, as the
JSON value put on the wire; `tx.value` is the JS Number of `#parseTx`. -/
def Tron.frameJson (f : TronParsedTx × String) : JsVal :=
  JsVal.obj
    [("tx", JsVal.obj
        [("txid", JsVal.str f.1.txid),
         ("value", JsVal.num f.1.value),
         ("to", JsVal.str f.1.toAddr),
         ("from", JsVal.str f.1.fromAddr),
         ("timestamp", JsVal.num f.1.timestamp),
         ("height", JsVal.num (Int.ofNat f.1.height))]),
     ("addr", JsVal.str f.2)]

/-- The `(tx.hash, subscribedAddr)` part of the match key of a delivered Tron
frame; `#parseTx` output carries no `token` field, so the key's token
component is constant. -/
def Tron.frameKey (f : TronParsedTx × String) : String × String :=
  (f.1.txid, f.2)

/-- A concrete parsed Tron transaction used by the C2 and C6 instances. -/
def tronTxA : TronParsedTx :=
  ⟨"hash1", 5, "taddr", "tother", 1000, 7⟩

/-- C2 counterexample: when the adapter's transaction stream contains the
same transfer twice, `#processTxs` sends the subscription two frames with the
identical `(tx.hash, addr, token)` triple — there is no deduplication by
match key. -/
theorem c2_counterexample_duplicate_stream_entries_double_send :
    (Tron.processTxsForSub 7 [tronTxA, tronTxA] [("taddr", [])]).map Tron.frameKey =
      [("hash1", "taddr"), ("hash1", "taddr")] := by
  rfl

/-- Helper: the frames one transaction generates across an interest list with
pairwise-distinct addresses have pairwise-distinct keys. -/
theorem Tron.keys_nodup_single_tx (tx : TronParsedTx) :
    ∀ interests : List (String × List String),
      (interests.map Prod.fst).Nodup →
      ((interests.filterMap (fun p =>
        if jsToLower tx.fromAddr == jsToLower p.1 || jsToLower tx.toAddr == jsToLower p.1 then
          some (tx, p.1)
        else none)).map Tron.frameKey).Nodup := by
  intro interests
  induction interests with
  | nil => intro _; simp
  | cons hd tl ih =>
    intro hnd
    rw [List.map_cons, List.nodup_cons] at hnd
    obtain ⟨hhd, htl⟩ := hnd
    rw [List.filterMap_cons]
    by_cases hc : (jsToLower tx.fromAddr == jsToLower hd.1 || jsToLower tx.toAddr == jsToLower hd.1) = true
    · rw [if_pos hc, List.map_cons, List.nodup_cons]
      refine ⟨?_, ih htl⟩
      intro hmem
      rw [List.mem_map] at hmem
      obtain ⟨f, hf, hfk⟩ := hmem
      rw [List.mem_filterMap] at hf
      obtain ⟨p, hp, hpf⟩ := hf
      by_cases hc2 : (jsToLower tx.fromAddr == jsToLower p.1 || jsToLower tx.toAddr == jsToLower p.1) = true
      · rw [if_pos hc2] at hpf
        apply hhd
        rw [List.mem_map]
        refine ⟨p, hp, ?_⟩
        have : f = (tx, p.1) := by
          injection hpf with h
          exact h.symm
        rw [this] at hfk
        have : p.1 = hd.1 := congrArg Prod.snd hfk
        exact this
      · rw [if_neg hc2] at hpf
        exact Option.noConfusion hpf
    · rw [if_neg hc]
      exact ih htl

/-- Helper: every key emitted for a transaction carries that transaction's
txid as its first component. -/
theorem Tron.key_fst_eq_txid (tx : TronParsedTx)
    (interests : List (String × List String)) (k : String × String)
    (hk : k ∈ (interests.filterMap (fun p =>
        if jsToLower tx.fromAddr == jsToLower p.1 || jsToLower tx.toAddr == jsToLower p.1 then
          some (tx, p.1)
        else none)).map Tron.frameKey) :
    k.1 = tx.txid := by
  rw [List.mem_map] at hk
  obtain ⟨f, hf, hfk⟩ := hk
  rw [List.mem_filterMap] at hf
  obtain ⟨p, _, hpf⟩ := hf
  by_cases hc : (jsToLower tx.fromAddr == jsToLower p.1 || jsToLower tx.toAddr == jsToLower p.1) = true
  · rw [if_pos hc] at hpf
    have : f = (tx, p.1) := by
      injection hpf with h
      exact h.symm
    rw [← hfk, this]
    rfl
  · rw [if_neg hc] at hpf
    exact Option.noConfusion hpf

/-- C2 amended: `#processTxs` deduplicates nothing, but within one poll cycle
a subscription receives at most one frame per match key provided the parsed
stream itself has pairwise-distinct transaction hashes (the interest list's
addresses are pairwise distinct, as `_wsSubscribeAccount` enforces); in
particular a transfer whose from and to sides both equal the subscribed
address still produces a single frame.  Duplicate stream entries, as the
counterexample shows, each produce their own frame. -/
theorem c2_amended_at_most_once_without_stream_duplicates
    (height : Nat) (parsedTxs : List TronParsedTx)
    (interests : List (String × List String))
    (htx : (parsedTxs.map TronParsedTx.txid).Nodup)
    (haddr : (interests.map Prod.fst).Nodup) :
    ((Tron.processTxsForSub height parsedTxs interests).map Tron.frameKey).Nodup := by
  unfold Tron.processTxsForSub
  rw [List.map_flatMap]
  rw [List.nodup_flatMap]
  constructor
  · intro tx _
    exact Tron.keys_nodup_single_tx tx interests haddr
  · have hmapped : ((parsedTxs.map (fun t => { t with height := height })).map
        TronParsedTx.txid).Nodup := by
      rw [List.map_map]
      exact htx
    clear htx
    induction parsedTxs with
    | nil => simp
    | cons hd tl ih =>
      rw [List.map_cons, List.map_cons, List.nodup_cons] at hmapped
      obtain ⟨hhd, htl⟩ := hmapped
      rw [List.map_cons, List.pairwise_cons]
      refine ⟨?_, ih htl⟩
      intro tx2 htx2 k hk1 hk2
      have h1 := Tron.key_fst_eq_txid _ interests k hk1
      have h2 := Tron.key_fst_eq_txid _ interests k hk2
      apply hhd
      rw [List.mem_map]
      refine ⟨tx2, htx2, ?_⟩
      rw [← h2, h1]

/-- C2 amended witness: a duplicate-free parsed stream of two transfers,
dispatched to a two-address interest list, yields frames with pairwise
distinct match keys. -/
theorem c2_amended_witness :
    ((Tron.processTxsForSub 7 [tronTxA, ⟨"hash2", 9, "baddr", "taddr", 1001, 7⟩]
        [("taddr", []), ("baddr", [])]).map Tron.frameKey).Nodup :=
  c2_amended_at_most_once_without_stream_duplicates 7
    [tronTxA, ⟨"hash2", 9, "baddr", "taddr", 1001, 7⟩]
    [("taddr", []), ("baddr", [])] (by decide) (by decide)

/-- The log record handed to Hardhat's ERC20 `Transfer` handler
(hardhat.js `_subToContract`). -/
structure HardhatLog where
  blockNumber : Nat
  transactionHash : String
  deriving Repr, DecidableEq

/-- A decoded `Transfer(address,address,uint256)` log: `web3.eth.abi.decodeLog`
yields the two indexed addresses and the `uint256` value (a BigInt). -/
structure DecodedTransfer where
  fromAddr : String
  toAddr : String
  value : Nat
  deriving Repr, DecidableEq

/-- The payloads `emitEvent` in Hardhat's `_subToContract` sends
(hardhat.js lines 94-114): for each subscription and each `[addr, tokens]`
pair, skip unless `tokens` contains the contract and one lowered side of the
decoded transfer equals `addr`; the payload's `tx.value` is
`decoded.value && decoded.value.toString()` — the decimal string for a
non-zero value, the BigInt zero itself otherwise. -/
def Hardhat.emitEvent (contract : String)
    (subs : List (List (String × List String)))
    (decoded : DecodedTransfer) (log : HardhatLog) : List JsVal :=
  subs.flatMap (fun ev =>
    ev.filterMap (fun p =>
      if !(p.2.contains contract) then none
      else if jsToLower decoded.fromAddr != p.1 && jsToLower decoded.toAddr != p.1 then none
      else some (JsVal.obj
        [("addr", JsVal.str p.1),
         ("token", JsVal.str contract),
         ("tx", JsVal.obj
            [("height", JsVal.num (Int.ofNat log.blockNumber)),
             ("txid", JsVal.str log.transactionHash),
             ("from", JsVal.str decoded.fromAddr),
             ("to", JsVal.str decoded.toAddr),
             ("value", if decoded.value == 0 then JsVal.num 0
               else JsVal.str (toString decoded.value))])])))

/-- C6 counterexample: a native Tron transfer delivered by `#processTxs`
carries `tx.value` as the JSON number 5, not a decimal string — `#parseTx`
builds `value` with `+param.value?.amount || parseInt(…)` and the payload is
serialized as-is. -/
theorem c6_counterexample_tron_value_is_number :
    (Tron.processTxsForSub 7 [tronTxA] [("taddr", [])]).map Tron.frameJson =
      [Tron.frameJson (tronTxA, "taddr")] ∧
    jsField (jsField (Tron.frameJson (tronTxA, "taddr")) "tx") "value" = JsVal.num 5 ∧
    (jsField (jsField (Tron.frameJson (tronTxA, "taddr")) "tx") "value").isStr = false := by
  refine ⟨?_, rfl, rfl⟩
  rfl

/-- C6 amended: serialization of `value` is adapter-specific.  Hardhat's token
event frames carry `tx.value` as the decimal string of the transfer amount
whenever the amount is non-zero, while every Tron `#processTxs` frame carries
`tx.value` as a JSON number. -/
theorem c6_amended_value_serialization_per_adapter
    (contract : String) (subs : List (List (String × List String)))
    (decoded : DecodedTransfer) (log : HardhatLog)
    (hval : decoded.value ≠ 0) :
    (∀ f ∈ Hardhat.emitEvent contract subs decoded log,
      jsField (jsField f "tx") "value" = JsVal.str (toString decoded.value)) ∧
    (∀ (height : Nat) (txs : List TronParsedTx)
        (interests : List (String × List String)),
      ∀ g ∈ (Tron.processTxsForSub height txs interests).map Tron.frameJson,
        ∃ n : Int, jsField (jsField g "tx") "value" = JsVal.num n) := by
  constructor
  · intro f hf
    unfold Hardhat.emitEvent at hf
    rw [List.mem_flatMap] at hf
    obtain ⟨ev, _, hev⟩ := hf
    rw [List.mem_filterMap] at hev
    obtain ⟨p, _, hp⟩ := hev
    by_cases h1 : (!(p.2.contains contract)) = true
    · rw [if_pos h1] at hp
      exact Option.noConfusion hp
    · rw [if_neg h1] at hp
      by_cases h2 : (jsToLower decoded.fromAddr != p.1 && jsToLower decoded.toAddr != p.1) = true
      · rw [if_pos h2] at hp
        exact Option.noConfusion hp
      · rw [if_neg h2] at hp
        have hf : f = JsVal.obj
            [("addr", JsVal.str p.1),
             ("token", JsVal.str contract),
             ("tx", JsVal.obj
                [("height", JsVal.num (Int.ofNat log.blockNumber)),
                 ("txid", JsVal.str log.transactionHash),
                 ("from", JsVal.str decoded.fromAddr),
                 ("to", JsVal.str decoded.toAddr),
                 ("value", if decoded.value == 0 then JsVal.num 0
                   else JsVal.str (toString decoded.value))])] := by
          injection hp with h
          exact h.symm
        rw [hf]
        have hz : (decoded.value == 0) = false := by
          simp [hval]
        simp [jsField, hz]
  · intro height txs interests g hg
    rw [List.mem_map] at hg
    obtain ⟨f, _, hfg⟩ := hg
    refine ⟨f.1.value, ?_⟩
    rw [← hfg]
    rfl

/-- C6 amended witness: a concrete non-zero Hardhat transfer frame carries
the string "25", and the concrete Tron frame of the counterexample carries a
number. -/
theorem c6_amended_witness :
    (∀ f ∈ Hardhat.emitEvent "0xtok" [[("0xalice", ["0xtok"])]]
        ⟨"0xAlice", "0xBob", 25⟩ ⟨12, "0xh"⟩,
      jsField (jsField f "tx") "value" = JsVal.str "25") ∧
    (∃ n : Int, jsField (jsField (Tron.frameJson (tronTxA, "taddr")) "tx") "value" =
      JsVal.num n) := by
  constructor
  · exact (c6_amended_value_serialization_per_adapter "0xtok" [[("0xalice", ["0xtok"])]]
      ⟨"0xAlice", "0xBob", 25⟩ ⟨12, "0xh"⟩ (by decide)).1
  · exact (c6_amended_value_serialization_per_adapter "0xtok" [[("0xalice", ["0xtok"])]]
      ⟨"0xAlice", "0xBob", 25⟩ ⟨12, "0xh"⟩ (by decide)).2 7 [tronTxA] [("taddr", [])]
      (Tron.frameJson (tronTxA, "taddr")) (by rw [List.mem_map]; exact ⟨(tronTxA, "taddr"), by decide, rfl⟩)

/-- One transfer as produced by Solana's `_parseTx` helpers (solana.js):
`from` may be absent for balance-diff derived native transfers, `token` is
set for SPL transfers. -/
structure SolTransfer where
  hash : String
  fromAddr : Option String
  toAddr : String
  value : Int
  blockNumber : Nat
  token : Option String

/-- A Solana transfer as a JS object (the records built in
`_resolveNativeTransfersByBalanceDifferences`, `_processTokenBalances`, and
the `transferChecked` branch). -/
def SolTransfer.toJsVal (t : SolTransfer) : JsVal :=
  JsVal.obj
    ((match t.fromAddr with
      | some f => [("from", JsVal.str f)]
      | none => []) ++
     [("hash", JsVal.str t.hash),
      ("to", JsVal.str t.toAddr),
      ("value", JsVal.num t.value),
      ("blockNumber", JsVal.num (Int.ofNat t.blockNumber))] ++
     (match t.token with
      | some tk => [("token", JsVal.str tk)]
      | none => []))

/-- Embedding of `Solana._getHeightTxs` (solana.js lines 314-323): `Promise.all` over
`block.transactions.map(tx => this._parseTx(tx, height))` — each element of
the returned array is itself the ARRAY of transfers `_parseTx` produced for
one transaction; the per-transaction lists are never flattened. -/
def Solana.getHeightTxs (parsedTxs : List (List SolTransfer)) : List JsVal :=
  parsedTxs.map (fun transfers => JsVal.arr (transfers.map SolTransfer.toJsVal))

/-- Embedding of `Solana._getAddrSetsForComparison` (solana.js lines 278-294) applied to a
value from the height-tx stream: when `tx.token` is a (truthy) string the
associated token account for `(token, addr)` is added; a non-string truthy
`token` makes `new PublicKey(tx.token)` throw, caught into empty sets.  The
ATA derivation is upstream SDK work, abstracted as `ata`. -/
def Solana.addrSetForComparison (ata : String → String → String)
    (tx : JsVal) (addr : String) : List String :=
  match jsField tx "token" with
  | JsVal.str tk => if tk == "" then [addr] else [addr, ata tk addr]
  | JsVal.undef => [addr]
  | JsVal.num n => if n == 0 then [addr] else []
  | _ => []

/-- Embedding of `Generic._isTxForAddress` applied to an arbitrary JS value, as
`_processHeight` does: `normalizedAddrSet.has(tx.from) ||
normalizedAddrSet.has(tx.to)`, where `Set.has` is false for any non-string
(in particular for `undefined`, the result of reading `.from` off an
array). -/
def Generic.isTxForAddressJs (tx : JsVal) (normalizedAddrSet : List String) : Bool :=
  jsSetHas normalizedAddrSet (jsField tx "from") ||
    jsSetHas normalizedAddrSet (jsField tx "to")

/-- The deliveries `Generic._processHeight` makes for one Solana height:
for each subscription, each `[addr]` interest, and each element `tx` of the
`_getHeightTxs` result, send when `_isTxForAddress(tx, …)` holds with
Solana's address sets. -/
def Solana.heightDeliveries (ata : String → String → String)
    (subs : List (List (String × List String)))
    (parsedTxs : List (List SolTransfer)) : List (JsVal × String) :=
  let txs := Solana.getHeightTxs parsedTxs
  subs.flatMap (fun ev =>
    ev.flatMap (fun p =>
      txs.filterMap (fun tx =>
        if Generic.isTxForAddressJs tx (Solana.addrSetForComparison ata tx p.1) then
          some (tx, p.1)
        else none)))

/-- Reading a named field off a JS array value yields `undefined`. -/
theorem jsField_arr (l : List JsVal) (name : String) :
    jsField (JsVal.arr l) name = JsVal.undef := rfl

/-- C9: the Solana height-polling path delivers nothing, ever.  Every element
of `_getHeightTxs`' result is an array (the unflattened per-transaction
transfer list), so `tx.from`/`tx.to` are `undefined`, `Set.has` is false for
every subscribed address, and the dispatch filter drops every candidate —
for every block, every subscription table, and every ATA derivation. -/
theorem c9_solana_height_path_delivers_nothing
    (ata : String → String → String)
    (subs : List (List (String × List String)))
    (parsedTxs : List (List SolTransfer)) :
    Solana.heightDeliveries ata subs parsedTxs = [] := by
  unfold Solana.heightDeliveries
  rw [List.flatMap_eq_nil_iff]
  intro ev _
  rw [List.flatMap_eq_nil_iff]
  intro p _
  rw [List.filterMap_eq_nil_iff]
  intro tx htx
  unfold Solana.getHeightTxs at htx
  rw [List.mem_map] at htx
  obtain ⟨transfers, _, htr⟩ := htx
  rw [← htr]
  rw [if_neg ?_]
  unfold Generic.isTxForAddressJs
  rw [jsField_arr, jsField_arr]
  simp [jsSetHas]

/-- The exceptions the modelled JavaScript fragments can raise. -/
inductive JsError where
  | typeError
  deriving Repr, DecidableEq

/-- JavaScript index access `v[i]` in expression position: indexing
`undefined` (or `null`) throws a TypeError; arrays yield the element or
`undefined`; strings yield the character; other values have no such property
and yield `undefined`. -/
def jsIndexE : JsVal → Nat → Except JsError JsVal
  | JsVal.undef, _ => Except.error JsError.typeError
  | JsVal.arr l, i => Except.ok (l.getD i JsVal.undef)
  | JsVal.str s, i =>
    Except.ok (match s.toList.drop i with
      | c :: _ => JsVal.str (String.mk [c])
      | [] => JsVal.undef)
  | JsVal.num _, _ => Except.ok JsVal.undef
  | JsVal.obj _, _ => Except.ok JsVal.undef

/-- The RPC record `Websocket._parseMsg` builds (ws.js lines 52-67): a JSON
parse failure yields `{ error: 'bad request format' }`; otherwise the frame's
`method` and `params` fields are read off the parsed object (absent fields
read as `undefined`) and no `error` key is set. -/
def Ws.parseMsg (parsed : Option JsVal) : Except String (JsVal × JsVal) :=
  match parsed with
  | none => Except.error "bad request format"
  | some res => Except.ok (jsField res "method", jsField res "params")

/-- The reads at the top of `Generic._wsSubscribeAccount` (generic.js lines
232-233): `let address = req?.params[0]` and
`const tokens = req?.params[1] || []`.  The optional chain guards only `req`
itself; when `req.params` is `undefined` the index access throws a TypeError
before the second line runs.  (The handler is `async`, so the throw becomes
a swallowed promise rejection: no reply of any kind is sent.) -/
def Generic.subscribeParamsAccess (params : JsVal) :
    Except JsError (JsVal × JsVal) := do
  let address ← jsIndexE params 0
  let tokensRaw ← jsIndexE params 1
  Except.ok (address, if jsTruthy tokensRaw then tokensRaw else JsVal.arr [])

/-- A frame sent from server to client on the WebSocket. -/
inductive WsOut where
  | badRequest
  | errorFrame (msg : String)
  deriving Repr, DecidableEq

/-- Decode a JS value into a list of token strings, for handing the extracted
params to the typed subscribe body; params of other shapes are outside the
modelled fragment (no claim exercises them). -/
def decodeStrList : JsVal → Option (List String)
  | JsVal.arr l => l.mapM (fun v =>
      match v with
      | JsVal.str s => some s
      | _ => none)
  | _ => none

/-- End-to-end handling of one WebSocket text frame carrying a
`subscribeAccount` request (ws.js lines 20-24 wiring `_parseMsg` into
`_processMsg`, proxy.js registering `_wsSubscribeAccount` as the
`ws-subscribeAccount` listener).  Returns the frames sent back to the client
and the exception the handler raised, if any: a parse failure answers
`{ error: 'bad request format' }`; a TypeError in the handler escapes the
`emit` as a swallowed promise rejection, answering nothing. -/
def Ws.handleSubscribeFrame (st : GenState) (cid : String)
    (parsedFrame : Option JsVal) : List WsOut × Option JsError :=
  match Ws.parseMsg parsedFrame with
  | Except.error _ => ([WsOut.badRequest], none)
  | Except.ok (method, params) =>
    match method with
    | JsVal.str m =>
      if m == "subscribeAccount" then
        match Generic.subscribeParamsAccess params with
        | Except.error e => ([], some e)
        | Except.ok (address, tokensJs) =>
          match address, decodeStrList tokensJs with
          | JsVal.str a, some toks =>
            (match (Generic.wsSubscribeAccount st cid (some a) toks).2 with
              | SubscribeResult.error msg => [WsOut.errorFrame msg]
              | SubscribeResult.subscribed => [], none)
          | JsVal.undef, some toks =>
            (match (Generic.wsSubscribeAccount st cid none toks).2 with
              | SubscribeResult.error msg => [WsOut.errorFrame msg]
              | SubscribeResult.subscribed => [], none)
          | _, _ => ([], none)
      else ([], none)
    | _ => ([], none)

/-- C10: a syntactically valid frame `{"method":"subscribeAccount"}` with no
`params` field passes `_parseMsg` (no bad-request reply), reaches
`_wsSubscribeAccount`, and the read `req?.params[0]` throws a TypeError —
optional chaining guards only `req` — so the client receives neither a data
frame nor an error frame. -/
theorem c10_missing_params_throws_typeerror_no_reply :
    Ws.parseMsg (some (JsVal.obj [("method", JsVal.str "subscribeAccount")])) =
      Except.ok (JsVal.str "subscribeAccount", JsVal.undef) ∧
    Generic.subscribeParamsAccess JsVal.undef = Except.error JsError.typeError ∧
    Ws.handleSubscribeFrame ⟨[], []⟩ "cid1"
        (some (JsVal.obj [("method", JsVal.str "subscribeAccount")])) =
      ([], some JsError.typeError) := by
  refine ⟨rfl, rfl, rfl⟩

/-- Embedding of `TonCenter._paginateIndexerCall` (toncenter.js lines 77-105): request
pages of `limit = 200` items, appending `processFn(getItemsFn(res))` each
round, stopping when a page returns fewer than `limit` items or after
`PAGINATION_LIMIT = 250` pages.  `resp i` is the item list the indexer
returns for the i-th request (offset `200 * i`); the result carries the
accumulated processed items, the number of requests issued, and the number
of raw items fetched. -/
def TonCenter.paginateGo {α β : Type} (resp : Nat → List α)
    (process : List α → List β) : Nat → Nat → List β × Nat × Nat
  | 0, _ => ([], 0, 0)
  | Nat.succ fuel, i =>
    let items := resp i
    let processed := process items
    if items.length < 200 then (processed, 1, items.length)
    else
      let rest := TonCenter.paginateGo resp process fuel (i + 1)
      (processed ++ rest.1, rest.2.1 + 1, rest.2.2 + items.length)

/-- The entry point of `_paginateIndexerCall`: up to `PAGINATION_LIMIT = 250`
pages starting from offset 0. -/
def TonCenter.paginateIndexerCall {α β : Type} (resp : Nat → List α)
    (process : List α → List β) : List β × Nat × Nat :=
  TonCenter.paginateGo resp process 250 0

/-- Helper: the loop never issues more requests than it has fuel. -/
theorem TonCenter.paginateGo_requests_le {α β : Type} (resp : Nat → List α)
    (process : List α → List β) :
    ∀ fuel i, (TonCenter.paginateGo resp process fuel i).2.1 ≤ fuel := by
  intro fuel
  induction fuel with
  | zero => intro i; simp [TonCenter.paginateGo]
  | succ n ih =>
    intro i
    unfold TonCenter.paginateGo
    by_cases h : (resp i).length < 200
    · simp only [h, if_true]
      omega
    · simp only [h, if_false]
      have := ih (i + 1)
      omega

/-- Helper: with every page at most 200 items, the loop fetches at most
`200 * fuel` records. -/
theorem TonCenter.paginateGo_fetched_le {α β : Type} (resp : Nat → List α)
    (process : List α → List β) (hresp : ∀ i, (resp i).length ≤ 200) :
    ∀ fuel i, (TonCenter.paginateGo resp process fuel i).2.2 ≤ 200 * fuel := by
  intro fuel
  induction fuel with
  | zero => intro i; simp [TonCenter.paginateGo]
  | succ n ih =>
    intro i
    unfold TonCenter.paginateGo
    by_cases h : (resp i).length < 200
    · simp only [h, if_true]
      have := hresp i
      omega
    · simp only [h, if_false]
      have h1 := ih (i + 1)
      have h2 := hresp i
      omega

/-- C8: for every indexer behaviour and processing function, a paginated
indexer call issues at most 250 page requests of `limit = 200` each, hence
fetches at most 50 000 records when the indexer honours the limit, and a
page of fewer than 200 items stops the call right there (one request from
that point on). -/
theorem c8_pagination_capped
    {α β : Type} (resp : Nat → List α) (process : List α → List β) :
    (TonCenter.paginateIndexerCall resp process).2.1 ≤ 250 ∧
    ((∀ i, (resp i).length ≤ 200) →
      (TonCenter.paginateIndexerCall resp process).2.2 ≤ 50000) ∧
    (∀ fuel i, (resp i).length < 200 →
      (TonCenter.paginateGo resp process (fuel + 1) i).2.1 = 1) := by
  refine ⟨TonCenter.paginateGo_requests_le resp process 250 0, ?_, ?_⟩
  · intro hresp
    have := TonCenter.paginateGo_fetched_le resp process hresp 250 0
    unfold TonCenter.paginateIndexerCall
    omega
  · intro fuel i hshort
    unfold TonCenter.paginateGo
    simp only [hshort, if_true]

/-- C8 witness: an indexer that always answers a 100-item page stops after
one request and 100 records. -/
theorem c8_witness :
    (TonCenter.paginateIndexerCall (fun _ => List.replicate 100 (0 : Nat))
      (fun l => l)).2.1 ≤ 250 ∧
    (TonCenter.paginateIndexerCall (fun _ => List.replicate 100 (0 : Nat))
      (fun l => l)).2.2 ≤ 50000 ∧
    (TonCenter.paginateGo (fun _ => List.replicate 100 (0 : Nat))
      (fun l => l) 1 0).2.1 = 1 := by
  refine ⟨(c8_pagination_capped _ _).1, ?_, ?_⟩
  · exact (c8_pagination_capped _ _).2.1 (fun i => by
      rw [List.length_replicate]
      omega)
  · exact (c8_pagination_capped _ _).2.2 0 0 (by
      rw [List.length_replicate]
      omega)
